import Mathlib

/-!
Verification development for the route-visualiser repository.

The repository has two verified components:
* `equi_rect_project` (src/er_projection.py): the equirectangular projection
  that maps latitude/longitude lists (degrees) to planar kilometre coordinates.
  Numpy arrays of floats are modelled as lists of real numbers and the numpy
  vectorised operations as element-wise maps.
* The pydantic input models (src/pydantic_models.py): `OrderInput`,
  `SolverConfig`, `RouteInput` with its `orders_unique` validator.  JSON
  numbers are exact decimals, modelled as rationals so validation is
  decidable; pydantic parsing, which raises on the first violated
  constraint of a record, is modelled as `Except String`.
* `reformat` (src/main.py, src/visualise_deliveries.py): file loading is
  modelled by taking the already-decoded JSON values as arguments; the
  function validates via `RouteInput`, projects, and builds the orders
  dictionary (Python dict insertion modelled by `dictInsert`).
-/

namespace RouteVisualiser

/-- Degrees to radians, the model of `np.radians`. -/
noncomputable def radians (deg : ℝ) : ℝ := deg * Real.pi / 180

/-- Radius of Earth in kilometres, `r = 6371` in `equi_rect_project`. -/
def earthRadius : ℝ := 6371

/-- The fixed reference latitude `centre_point_deg` in `equi_rect_project`. -/
noncomputable def centre_point_deg : ℝ := -31.952258602714696

/-- Model of `equi_rect_project` from src/er_projection.py: converts both
lists to radians and scales by the Earth radius, the longitudes additionally
by the cosine of the reference latitude in radians. -/
noncomputable def equi_rect_project (latitudes longitudes : List ℝ) :
    List ℝ × List ℝ :=
  let center_latitude_radians := radians centre_point_deg
  let longitudes_radians := longitudes.map radians
  let latitudes_radians := latitudes.map radians
  let longitudes2 := longitudes_radians.map
    (fun x => earthRadius * x * Real.cos center_latitude_radians)
  let latitudes2 := latitudes_radians.map (fun x => earthRadius * x)
  (latitudes2, longitudes2)

/-- Claim C1: for every list of latitudes and every list of longitudes (in
degrees), `equi_rect_project` returns element-wise the pair
`(6371 * radians lat_i, 6371 * radians lon_i * cos (radians (-31.952258602714696)))`. -/
theorem equi_rect_project_elementwise (lats lons : List ℝ) (i : ℕ) :
    (equi_rect_project lats lons).1[i]? =
      (lats[i]?).map (fun x => 6371 * (x * Real.pi / 180)) ∧
    (equi_rect_project lats lons).2[i]? =
      (lons[i]?).map (fun x => 6371 * (x * Real.pi / 180) *
        Real.cos ((-31.952258602714696) * Real.pi / 180)) := by
  constructor <;>
  · simp only [equi_rect_project, List.getElem?_map, Option.map_map]
    congr 1

/-- Model of the pydantic `OrderInput` record: an order id and geographic
coordinates.  JSON numbers are exact decimals, modelled as rationals. -/
structure OrderInput where
  order_id : ℤ
  lat : ℚ
  lon : ℚ
deriving Repr, DecidableEq

/-- Model of pydantic validation of `OrderInput` (src/pydantic_models.py):
`order_id` has `ge=0`, `lat` has `ge=-90, le=90`, `lon` has `ge=-180, le=180`.
Pydantic raises a validation error when a constraint fails; this is modelled
by `Except.error`. -/
def parseOrderInput (o : OrderInput) : Except String OrderInput :=
  if o.order_id < 0 then .error "order_id: input should be >= 0"
  else if o.lat < -90 then .error "lat: input should be >= -90"
  else if 90 < o.lat then .error "lat: input should be <= 90"
  else if o.lon < -180 then .error "lon: input should be >= -180"
  else if 180 < o.lon then .error "lon: input should be <= 180"
  else .ok o

/-- Model of the pydantic `SolverConfig` record. -/
structure SolverConfig where
  type : String
  distance : String
  max_solve_size : ℤ
deriving Repr, DecidableEq

/-- Model of pydantic validation of `SolverConfig`: `max_solve_size` has
`ge=1`. -/
def parseSolverConfig (s : SolverConfig) : Except String SolverConfig :=
  if s.max_solve_size < 1 then .error "max_solve_size: input should be >= 1"
  else .ok s

/-- Model of the pydantic `ClusterConfig` record (only constrained field is
`type`; extra fields are allowed and carry no constraints). -/
structure ClusterConfig where
  type : String
deriving Repr, DecidableEq

/-- Loop body of the `orders_unique` validator of `RouteInput`: walk the
list keeping the set `seen_id` of ids already seen (modelled as a list),
raising `ValueError("order_id must be unique")` on a repeat. -/
def ordersUniqueGo (seen_id : List ℤ) : List OrderInput → Except String Unit
  | [] => .ok ()
  | order :: rest =>
    if order.order_id ∈ seen_id then .error "order_id must be unique"
    else ordersUniqueGo (order.order_id :: seen_id) rest

/-- Model of the `RouteInput.orders_unique` field validator: returns the
list `v` unchanged when all ids are fresh, otherwise the `ValueError`. -/
def orders_unique (v : List OrderInput) : Except String (List OrderInput) :=
  (ordersUniqueGo [] v).map (fun _ => v)

/-- Model of the pydantic `RouteInput` record. -/
structure RouteInput where
  vehicle_cluster_config : ClusterConfig
  solver_config : SolverConfig
  orders : List OrderInput
deriving Repr, DecidableEq

/-- Element-wise validation of the `orders` list: each element is parsed as
an `OrderInput`. -/
def validateOrders : List OrderInput → Except String (List OrderInput)
  | [] => .ok []
  | o :: rest =>
    match parseOrderInput o with
    | .error e => .error e
    | .ok o2 =>
      match validateOrders rest with
      | .error e => .error e
      | .ok rest2 => .ok (o2 :: rest2)

/-- Model of pydantic validation of `RouteInput` (the `RouteInput(**locations)`
call in `reformat`): validate the solver config, each order record, then run
the `orders_unique` validator.  Pydantic collects all field errors before
raising; the model keeps the first error, which is enough for the claims
(a violated constraint yields an error either way). -/
def parseRouteInput (raw : RouteInput) : Except String RouteInput :=
  match parseSolverConfig raw.solver_config with
  | .error e => .error e
  | .ok sc =>
    match validateOrders raw.orders with
    | .error e => .error e
    | .ok os =>
      match orders_unique os with
      | .error e => .error e
      | .ok os2 => .ok ⟨raw.vehicle_cluster_config, sc, os2⟩

/-- Claim C3: parsing an `OrderInput` succeeds only if `lat ∈ [-90, 90]` and
`lon ∈ [-180, 180]`; a record with `lat` or `lon` out of range is rejected
with a validation error. -/
theorem parseOrderInput_range (o : OrderInput) :
    (∀ o2, parseOrderInput o = .ok o2 →
      -90 ≤ o.lat ∧ o.lat ≤ 90 ∧ -180 ≤ o.lon ∧ o.lon ≤ 180) ∧
    (¬ (-90 ≤ o.lat ∧ o.lat ≤ 90 ∧ -180 ≤ o.lon ∧ o.lon ≤ 180) →
      ∃ e, parseOrderInput o = .error e) := by
  unfold parseOrderInput
  split_ifs with h1 h2 h3 h4 h5 <;> simp
  push_neg at h2 h3 h4 h5
  exact ⟨h2, h3, h4, h5⟩

/-- Witness for C3: the in-range record `(0, 10, 20)` parses, the record
with `lat = 100` is rejected. -/
theorem parseOrderInput_range_witness :
    ((-90 : ℚ) ≤ 10 ∧ (10 : ℚ) ≤ 90 ∧ (-180 : ℚ) ≤ 20 ∧ (20 : ℚ) ≤ 180) ∧
    (∃ e, parseOrderInput ⟨0, 100, 0⟩ = .error e) :=
  ⟨(parseOrderInput_range ⟨0, 10, 20⟩).1 ⟨0, 10, 20⟩ rfl,
   (parseOrderInput_range ⟨0, 100, 0⟩).2 (by decide)⟩

lemma ordersUniqueGo_ok (seen : List ℤ) (l : List OrderInput)
    (hd : (l.map (fun o => o.order_id)).Nodup)
    (hs : ∀ o ∈ l, o.order_id ∉ seen) :
    ordersUniqueGo seen l = .ok () := by
  induction l generalizing seen with
  | nil => rfl
  | cons o rest ih =>
    simp only [List.map_cons, List.nodup_cons, List.mem_map] at hd
    rw [ordersUniqueGo, if_neg (hs o (List.mem_cons_self o rest))]
    refine ih _ hd.2 ?_
    intro o2 h2
    simp only [List.mem_cons]
    push_neg
    exact ⟨fun he => hd.1 ⟨o2, h2, he⟩, hs o2 (List.mem_cons_of_mem o h2)⟩

lemma ordersUniqueGo_error (seen : List ℤ) (l : List OrderInput)
    (h : ¬ ((l.map (fun o => o.order_id)).Nodup ∧
      ∀ o ∈ l, o.order_id ∉ seen)) :
    ordersUniqueGo seen l = .error "order_id must be unique" := by
  induction l generalizing seen with
  | nil => simp at h
  | cons o rest ih =>
    by_cases hmem : o.order_id ∈ seen
    · rw [ordersUniqueGo, if_pos hmem]
    · rw [ordersUniqueGo, if_neg hmem]
      refine ih _ ?_
      intro ⟨hnd, hfresh⟩
      refine h ⟨?_, ?_⟩
      · simp only [List.map_cons, List.nodup_cons, List.mem_map]
        refine ⟨?_, hnd⟩
        rintro ⟨o2, h2, he⟩
        have := hfresh o2 h2
        simp only [List.mem_cons] at this
        push_neg at this
        exact this.1 he
      · intro o2 h2
        rcases List.mem_cons.mp h2 with h2 | h2
        · rw [h2]; exact hmem
        · have := hfresh o2 h2
          simp only [List.mem_cons] at this
          push_neg at this
          exact this.2

/-- Claim C2: an orders list containing two records with the same `order_id`
makes the `orders_unique` validator raise `ValueError("order_id must be
unique")`; a list with pairwise-distinct ids is accepted and returned
unchanged. -/
theorem orders_unique_spec (v : List OrderInput) :
    ((v.map (fun o => o.order_id)).Nodup → orders_unique v = .ok v) ∧
    (¬ (v.map (fun o => o.order_id)).Nodup →
      orders_unique v = .error "order_id must be unique") := by
  constructor
  · intro hnd
    unfold orders_unique
    rw [ordersUniqueGo_ok [] v hnd (by simp)]
    rfl
  · intro hdup
    unfold orders_unique
    rw [ordersUniqueGo_error [] v (by simp [hdup])]
    rfl

/-- Witness for C2: the distinct list `[id 0, id 1]` is returned unchanged,
the list repeating id `7` is rejected with the `ValueError` message. -/
theorem orders_unique_spec_witness :
    orders_unique [⟨0, 1, 2⟩, ⟨1, 3, 4⟩] = .ok [⟨0, 1, 2⟩, ⟨1, 3, 4⟩] ∧
    orders_unique [⟨7, 1, 2⟩, ⟨7, 3, 4⟩] = .error "order_id must be unique" :=
  ⟨(orders_unique_spec [⟨0, 1, 2⟩, ⟨1, 3, 4⟩]).1 (by decide),
   (orders_unique_spec [⟨7, 1, 2⟩, ⟨7, 3, 4⟩]).2 (by decide)⟩

/-- Claim C7: parsing a `SolverConfig` succeeds only if `max_solve_size ≥ 1`;
a record with `max_solve_size` zero or negative is rejected with a
validation error. -/
theorem parseSolverConfig_spec (s : SolverConfig) :
    (∀ s2, parseSolverConfig s = .ok s2 → 1 ≤ s.max_solve_size) ∧
    (s.max_solve_size < 1 → ∃ e, parseSolverConfig s = .error e) := by
  unfold parseSolverConfig
  split_ifs with h1 <;> simp
  omega

/-- Witness for C7: `max_solve_size = 3` parses and indeed `1 ≤ 3`;
`max_solve_size = 0` is rejected. -/
theorem parseSolverConfig_spec_witness :
    (1 : ℤ) ≤ 3 ∧ ∃ e, parseSolverConfig ⟨"t", "d", 0⟩ = .error e :=
  ⟨(parseSolverConfig_spec ⟨"t", "d", 3⟩).1 ⟨"t", "d", 3⟩ rfl,
   (parseSolverConfig_spec ⟨"t", "d", 0⟩).2 (by decide)⟩

/-- Claim C8: parsing an `OrderInput` succeeds only if `order_id ≥ 0`; a
record with a negative `order_id` is rejected with a validation error even
when its coordinates are in range (and regardless of uniqueness, which is a
property of the surrounding list, not of the record). -/
theorem parseOrderInput_order_id_nonneg (o : OrderInput) :
    (∀ o2, parseOrderInput o = .ok o2 → 0 ≤ o.order_id) ∧
    (o.order_id < 0 → ∃ e, parseOrderInput o = .error e) := by
  unfold parseOrderInput
  split_ifs with h1 h2 h3 h4 h5 <;> simp
  omega

/-- Witness for C8: the record with `order_id = -1` and in-range coordinates
is rejected; the record with `order_id = 5` parses and indeed `0 ≤ 5`. -/
theorem parseOrderInput_order_id_nonneg_witness :
    (0 : ℤ) ≤ 5 ∧ ∃ e, parseOrderInput ⟨-1, 10, 20⟩ = .error e :=
  ⟨(parseOrderInput_order_id_nonneg ⟨5, 10, 20⟩).1 ⟨5, 10, 20⟩ rfl,
   (parseOrderInput_order_id_nonneg ⟨-1, 10, 20⟩).2 (by decide)⟩

/-- Claim C5: `equi_rect_project` is deterministic: two calls on equal
latitude and longitude lists return equal pairs of arrays.  In the shallow
embedding the function is pure by construction (it reads no state and
performs no I/O), so the observable part of the claim is exactly this
congruence. -/
theorem equi_rect_project_deterministic (lats1 lons1 lats2 lons2 : List ℝ)
    (hlat : lats1 = lats2) (hlon : lons1 = lons2) :
    equi_rect_project lats1 lons1 = equi_rect_project lats2 lons2 := by
  rw [hlat, hlon]

/-- Witness for C5: the two argument lists `[1]` and `[2]` equal themselves,
so the two calls agree. -/
theorem equi_rect_project_deterministic_witness :
    equi_rect_project [(1 : ℝ)] [(2 : ℝ)] = equi_rect_project [(1 : ℝ)] [(2 : ℝ)] :=
  equi_rect_project_deterministic [1] [2] [1] [2] rfl rfl

/-- Claim C6: the projection is affine in each coordinate, so equally spaced
inputs stay equally spaced: if `b - a = c - b` then the projected latitudes
of `[a, b, c]` satisfy `p1 - p0 = p2 - p1`, and likewise the projected
longitudes. -/
theorem equi_rect_project_equal_spacing (a b c : ℝ) (h : b - a = c - b) :
    (equi_rect_project [a, b, c] [a, b, c]).1[1]! -
        (equi_rect_project [a, b, c] [a, b, c]).1[0]! =
      (equi_rect_project [a, b, c] [a, b, c]).1[2]! -
        (equi_rect_project [a, b, c] [a, b, c]).1[1]! ∧
    (equi_rect_project [a, b, c] [a, b, c]).2[1]! -
        (equi_rect_project [a, b, c] [a, b, c]).2[0]! =
      (equi_rect_project [a, b, c] [a, b, c]).2[2]! -
        (equi_rect_project [a, b, c] [a, b, c]).2[1]! := by
  simp only [equi_rect_project, List.map_cons, List.map_nil]
  constructor
  · show earthRadius * radians b - earthRadius * radians a =
      earthRadius * radians c - earthRadius * radians b
    simp only [radians]
    linear_combination (earthRadius * Real.pi / 180) * h
  · show earthRadius * radians b * Real.cos (radians centre_point_deg) -
        earthRadius * radians a * Real.cos (radians centre_point_deg) =
      earthRadius * radians c * Real.cos (radians centre_point_deg) -
        earthRadius * radians b * Real.cos (radians centre_point_deg)
    simp only [radians]
    linear_combination
      (earthRadius * Real.pi / 180 *
        Real.cos (centre_point_deg * Real.pi / 180)) * h

/-- Witness for C6: the equally spaced degrees `0, 1, 2`. -/
theorem equi_rect_project_equal_spacing_witness :
    (1 : ℝ) - 0 = 2 - 1 ∧
    ((equi_rect_project [(0 : ℝ), 1, 2] [(0 : ℝ), 1, 2]).1[1]! -
        (equi_rect_project [(0 : ℝ), 1, 2] [(0 : ℝ), 1, 2]).1[0]! =
      (equi_rect_project [(0 : ℝ), 1, 2] [(0 : ℝ), 1, 2]).1[2]! -
        (equi_rect_project [(0 : ℝ), 1, 2] [(0 : ℝ), 1, 2]).1[1]! ∧
    (equi_rect_project [(0 : ℝ), 1, 2] [(0 : ℝ), 1, 2]).2[1]! -
        (equi_rect_project [(0 : ℝ), 1, 2] [(0 : ℝ), 1, 2]).2[0]! =
      (equi_rect_project [(0 : ℝ), 1, 2] [(0 : ℝ), 1, 2]).2[2]! -
        (equi_rect_project [(0 : ℝ), 1, 2] [(0 : ℝ), 1, 2]).2[1]!) :=
  ⟨by norm_num, equi_rect_project_equal_spacing 0 1 2 (by norm_num)⟩

/-- Claim C9: on equal-length inputs each returned array has the common
input length; on two empty lists both returned arrays are empty. -/
theorem equi_rect_project_length (lats lons : List ℝ)
    (h : lats.length = lons.length) :
    (equi_rect_project lats lons).1.length = lats.length ∧
    (equi_rect_project lats lons).2.length = lats.length ∧
    equi_rect_project ([] : List ℝ) ([] : List ℝ) = ([], []) := by
  refine ⟨?_, ?_, rfl⟩ <;> simp [equi_rect_project, h]

/-- Witness for C9: the singleton lists `[1]` and `[2]`. -/
theorem equi_rect_project_length_witness :
    [(1 : ℝ)].length = [(2 : ℝ)].length ∧
    ((equi_rect_project [(1 : ℝ)] [(2 : ℝ)]).1.length = [(1 : ℝ)].length ∧
     (equi_rect_project [(1 : ℝ)] [(2 : ℝ)]).2.length = [(1 : ℝ)].length ∧
     equi_rect_project ([] : List ℝ) ([] : List ℝ) = ([], [])) :=
  ⟨rfl, equi_rect_project_length [1] [2] rfl⟩

/-- Test whether the Python dict model already has key `k`. -/
def dictContains (d : List (ℤ × ℚ × ℚ)) (k : ℤ) : Bool :=
  d.any (fun p => p.1 == k)

/-- Python dict assignment `d[k] = v`: overwrite the entry when the key is
present, otherwise append a new entry (Python dicts keep insertion order). -/
def dictInsert (d : List (ℤ × ℚ × ℚ)) (k : ℤ) (v : ℚ × ℚ) :
    List (ℤ × ℚ × ℚ) :=
  if dictContains d k then d.map (fun p => if p.1 == k then (k, v) else p)
  else d ++ [(k, v)]

/-- Python dict lookup `d[k]`. -/
def dictLookup (d : List (ℤ × ℚ × ℚ)) (k : ℤ) : Option (ℚ × ℚ) :=
  (d.find? (fun p => p.1 == k)).map (fun p => p.2)

/-- Model of the dict comprehension
`{order.order_id: {'lat': order.lat, 'lon': order.lon} for order in locations.orders}`
in `reformat` and `reformat_locations`. -/
def buildOrdersDict (orders : List OrderInput) : List (ℤ × ℚ × ℚ) :=
  orders.foldl (fun d o => dictInsert d o.order_id (o.lat, o.lon)) []

/-- Model of `reformat` (src/main.py and src/visualise_deliveries.py).  File
reading and `json.load` are modelled by taking the decoded JSON values as
arguments; `RouteInput(**locations)` is the validation step `parseRouteInput`,
whose failure aborts the function before `equi_rect_project` is reached. -/
noncomputable def reformat (locations : RouteInput) (routes : List (List ℤ)) :
    Except String (List ℝ × List ℝ × List (ℤ × ℚ × ℚ) × List (List ℤ)) :=
  match parseRouteInput locations with
  | .error e => .error e
  | .ok ri =>
    let lats : List ℝ := ri.orders.map (fun o => (o.lat : ℝ))
    let longs : List ℝ := ri.orders.map (fun o => (o.lon : ℝ))
    let projected := equi_rect_project lats longs
    let orders := buildOrdersDict ri.orders
    .ok (projected.1, projected.2, orders, routes)

/-- Model of `reformat_locations` (src/visualise_deliveries.py): same as
`reformat` without the routes file. -/
noncomputable def reformat_locations (locations : RouteInput) :
    Except String (List ℝ × List ℝ × List (ℤ × ℚ × ℚ)) :=
  match parseRouteInput locations with
  | .error e => .error e
  | .ok ri =>
    let lats : List ℝ := ri.orders.map (fun o => (o.lat : ℝ))
    let longs : List ℝ := ri.orders.map (fun o => (o.lon : ℝ))
    let projected := equi_rect_project lats longs
    let orders := buildOrdersDict ri.orders
    .ok (projected.1, projected.2, orders)

lemma parseOrderInput_ok (o o2 : OrderInput)
    (h : parseOrderInput o = .ok o2) :
    o2 = o ∧ -90 ≤ o.lat ∧ o.lat ≤ 90 ∧ -180 ≤ o.lon ∧ o.lon ≤ 180 := by
  unfold parseOrderInput at h
  split_ifs at h with h1 h2 h3 h4 h5
  simp only [Except.ok.injEq] at h
  push_neg at h2 h3 h4 h5
  exact ⟨h.symm, h2, h3, h4, h5⟩

lemma validateOrders_ok (l l2 : List OrderInput)
    (h : validateOrders l = .ok l2) :
    l2 = l ∧ ∀ o ∈ l, -90 ≤ o.lat ∧ o.lat ≤ 90 ∧ -180 ≤ o.lon ∧ o.lon ≤ 180 := by
  induction l generalizing l2 with
  | nil =>
    unfold validateOrders at h
    simp only [Except.ok.injEq] at h
    simp [h.symm]
  | cons o rest ih =>
    unfold validateOrders at h
    cases hp : parseOrderInput o with
    | error e => rw [hp] at h; cases h
    | ok o2 =>
      rw [hp] at h
      cases hv : validateOrders rest with
      | error e => rw [hv] at h; cases h
      | ok rest2 =>
        rw [hv] at h
        simp only [Except.ok.injEq] at h
        obtain ⟨ho, hrange⟩ := parseOrderInput_ok o o2 hp
        obtain ⟨hr, hrest⟩ := ih rest2 hv
        subst ho hr
        refine ⟨h.symm, ?_⟩
        intro o3 h3
        rcases List.mem_cons.mp h3 with h3 | h3
        · rw [h3]; exact hrange
        · exact hrest o3 h3

lemma orders_unique_ok (v w : List OrderInput)
    (h : orders_unique v = .ok w) : w = v := by
  unfold orders_unique at h
  cases hg : ordersUniqueGo [] v <;> rw [hg] at h <;>
    simp [Except.map] at h
  exact h.symm

lemma parseRouteInput_ok (loc ri : RouteInput)
    (h : parseRouteInput loc = .ok ri) :
    ri = loc ∧
      ∀ o ∈ loc.orders,
        -90 ≤ o.lat ∧ o.lat ≤ 90 ∧ -180 ≤ o.lon ∧ o.lon ≤ 180 := by
  unfold parseRouteInput at h
  cases hsc : parseSolverConfig loc.solver_config with
  | error e => rw [hsc] at h; cases h
  | ok sc =>
    rw [hsc] at h
    dsimp only at h
    cases hvo : validateOrders loc.orders with
    | error e => rw [hvo] at h; cases h
    | ok os =>
      rw [hvo] at h
      dsimp only at h
      cases hu : orders_unique os with
      | error e => rw [hu] at h; cases h
      | ok os2 =>
        rw [hu] at h
        dsimp only at h
        simp only [Except.ok.injEq] at h
        obtain ⟨hos, hrange⟩ := validateOrders_ok loc.orders os hvo
        have hsc2 : sc = loc.solver_config := by
          unfold parseSolverConfig at hsc
          split_ifs at hsc
          simp only [Except.ok.injEq] at hsc
          exact hsc.symm
        have hos2 : os2 = os := orders_unique_ok os os2 hu
        subst hos hos2 hsc2
        exact ⟨h.symm, hrange⟩

/-- Claim C4: in `reformat`, validation happens before projection.  A
locations value rejected by `RouteInput` validation makes `reformat` return
that error (so `equi_rect_project` is never applied), and on accepted input
`reformat` applies `equi_rect_project` exactly to the validated orders, all
of whose latitudes lie in `[-90, 90]` and longitudes in `[-180, 180]`. -/
theorem reformat_validates_before_projecting (loc : RouteInput)
    (routes : List (List ℤ)) :
    (∀ e, parseRouteInput loc = .error e → reformat loc routes = .error e) ∧
    (∀ ri, parseRouteInput loc = .ok ri →
      reformat loc routes = .ok
        ((equi_rect_project (ri.orders.map (fun o => (o.lat : ℝ)))
            (ri.orders.map (fun o => (o.lon : ℝ)))).1,
         (equi_rect_project (ri.orders.map (fun o => (o.lat : ℝ)))
            (ri.orders.map (fun o => (o.lon : ℝ)))).2,
         buildOrdersDict ri.orders, routes) ∧
      ∀ o ∈ ri.orders,
        -90 ≤ o.lat ∧ o.lat ≤ 90 ∧ -180 ≤ o.lon ∧ o.lon ≤ 180) := by
  constructor
  · intro e he
    unfold reformat
    rw [he]
  · intro ri hri
    obtain ⟨hloc, hrange⟩ := parseRouteInput_ok loc ri hri
    constructor
    · unfold reformat
      rw [hri]
    · subst hloc
      exact hrange

/-- A valid example input: one order, in range, `max_solve_size = 1`. -/
def goodLocations : RouteInput :=
  ⟨⟨"kmeans"⟩, ⟨"tsp", "euclidean", 1⟩, [⟨0, 10, 20⟩]⟩

/-- An invalid example input: the latitude `100` is out of range. -/
def badLocations : RouteInput :=
  ⟨⟨"kmeans"⟩, ⟨"tsp", "euclidean", 1⟩, [⟨0, 100, 20⟩]⟩

/-- Witness for C4: `badLocations` makes `reformat` fail with the latitude
error before any projection; `goodLocations` is projected and in range. -/
theorem reformat_validates_before_projecting_witness :
    reformat badLocations [] = .error "lat: input should be <= 90" ∧
    (reformat goodLocations [] = .ok
        ((equi_rect_project (goodLocations.orders.map (fun o => (o.lat : ℝ)))
            (goodLocations.orders.map (fun o => (o.lon : ℝ)))).1,
         (equi_rect_project (goodLocations.orders.map (fun o => (o.lat : ℝ)))
            (goodLocations.orders.map (fun o => (o.lon : ℝ)))).2,
         buildOrdersDict goodLocations.orders, []) ∧
      ∀ o ∈ goodLocations.orders,
        -90 ≤ o.lat ∧ o.lat ≤ 90 ∧ -180 ≤ o.lon ∧ o.lon ≤ 180) :=
  ⟨(reformat_validates_before_projecting badLocations []).1
      "lat: input should be <= 90" rfl,
   (reformat_validates_before_projecting goodLocations []).2
      goodLocations rfl⟩

lemma dictInsert_fresh (d : List (ℤ × ℚ × ℚ)) (k : ℤ) (v : ℚ × ℚ)
    (h : dictContains d k = false) : dictInsert d k v = d ++ [(k, v)] := by
  unfold dictInsert
  rw [h]
  rfl

lemma buildOrdersDict_go (orders : List OrderInput) :
    ∀ d : List (ℤ × ℚ × ℚ),
      (orders.map (fun o => o.order_id)).Nodup →
      (∀ o ∈ orders, dictContains d o.order_id = false) →
      orders.foldl (fun d o => dictInsert d o.order_id (o.lat, o.lon)) d =
        d ++ orders.map (fun o => (o.order_id, (o.lat, o.lon))) := by
  induction orders with
  | nil => intro d _ _; simp
  | cons o rest ih =>
    intro d hnd hdisj
    simp only [List.map_cons, List.nodup_cons, List.mem_map] at hnd
    rw [List.foldl_cons,
      dictInsert_fresh d o.order_id (o.lat, o.lon)
        (hdisj o (List.mem_cons_self o rest)),
      ih (d ++ [(o.order_id, (o.lat, o.lon))]) hnd.2 ?_]
    · simp
    · intro o2 h2
      have hne : o2.order_id ≠ o.order_id := fun he => hnd.1 ⟨o2, h2, he⟩
      have hd2 := hdisj o2 (List.mem_cons_of_mem o h2)
      simp only [dictContains, List.any_append, List.any_cons, List.any_nil,
        Bool.or_eq_false_iff, beq_eq_false_iff_ne, ne_eq] at hd2 ⊢
      exact ⟨hd2, ⟨fun he => hne he.symm, trivial⟩⟩

lemma buildOrdersDict_nodup (orders : List OrderInput)
    (hnd : (orders.map (fun o => o.order_id)).Nodup) :
    buildOrdersDict orders =
      orders.map (fun o => (o.order_id, (o.lat, o.lon))) := by
  have := buildOrdersDict_go orders [] hnd (by intro o _; rfl)
  simpa [buildOrdersDict] using this

/-- Claim C10: for a validated orders list (pairwise-distinct ids), the
orders dictionary built by `reformat`/`reformat_locations` has exactly one
entry per order, and looking up any `order_id` yields exactly the `lat` and
`lon` of the order with that id. -/
theorem buildOrdersDict_spec (orders : List OrderInput)
    (hnd : (orders.map (fun o => o.order_id)).Nodup) :
    (buildOrdersDict orders).length = orders.length ∧
    ∀ o ∈ orders,
      dictLookup (buildOrdersDict orders) o.order_id = some (o.lat, o.lon) := by
  rw [buildOrdersDict_nodup orders hnd]
  refine ⟨by simp, ?_⟩
  induction orders with
  | nil => intro o h; cases h
  | cons o1 rest ih =>
    intro o h
    simp only [List.map_cons, List.nodup_cons, List.mem_map] at hnd
    rcases List.mem_cons.mp h with h | h
    · subst h
      unfold dictLookup
      simp [List.find?_cons]
    · have hne : o1.order_id ≠ o.order_id :=
        fun he => hnd.1 ⟨o, h, he.symm⟩
      have hb : (o1.order_id == o.order_id) = false := by
        simpa using hne
      unfold dictLookup
      simp only [List.map_cons, List.find?_cons, hb]
      exact ih hnd.2 o h

/-- Witness for C10: two orders with ids `0` and `1`: the dictionary has two
entries and both lookups return the right coordinates. -/
theorem buildOrdersDict_spec_witness :
    (([⟨0, 1, 2⟩, ⟨1, 3, 4⟩] : List OrderInput).map
        (fun o => o.order_id)).Nodup ∧
    ((buildOrdersDict [⟨0, 1, 2⟩, ⟨1, 3, 4⟩]).length =
        ([⟨0, 1, 2⟩, ⟨1, 3, 4⟩] : List OrderInput).length ∧
      ∀ o ∈ ([⟨0, 1, 2⟩, ⟨1, 3, 4⟩] : List OrderInput),
        dictLookup (buildOrdersDict [⟨0, 1, 2⟩, ⟨1, 3, 4⟩]) o.order_id =
          some (o.lat, o.lon)) :=
  ⟨by decide, buildOrdersDict_spec [⟨0, 1, 2⟩, ⟨1, 3, 4⟩] (by decide)⟩

end RouteVisualiser
